import Mathlib

/-!
Verification development for `src/bc_coupon_importer.py`, a CLI tool that
uploads coupon codes from a CSV file to a BigCommerce promotion.

The Python source is shallowly embedded: the CSV loader `read_coupon_codes`,
the upload loop `BigCommerceAPI.create_coupon_codes` and the precondition
check `validate_promotion` become total Lean functions over explicit
representations of their inputs and of the remote HTTP outcomes.
-/

namespace BC

/-! ## Python string primitives -/

/-- The whitespace predicate used to model Python `str.strip()`. -/
def isPySpace (c : Char) : Bool := c.isWhitespace

/-- Strip leading and trailing whitespace from a character list. -/
def stripChars (l : List Char) : List Char :=
  List.rdropWhile isPySpace (List.dropWhile isPySpace l)

/-- Model of Python `str.strip()`: remove leading and trailing whitespace. -/
def pyStrip (s : String) : String :=
  String.mk (stripChars s.data)

/-- Value of a list of decimal digit characters. -/
def digitsVal (l : List Char) : Nat :=
  l.foldl (fun a c => a * 10 + (c.toNat - '0'.toNat)) 0

/-- Model of Python `int(s)` on an already-stripped string: an optional sign
followed by at least one decimal digit; `none` models `ValueError`. -/
def pyInt (s : String) : Option Int :=
  match s.data with
  | [] => none
  | c :: cs =>
    if c = '-' then
      if cs ≠ [] ∧ cs.all Char.isDigit then some (-(digitsVal cs : Int)) else none
    else if c = '+' then
      if cs ≠ [] ∧ cs.all Char.isDigit then some ((digitsVal cs : Int)) else none
    else
      if (c :: cs).all Char.isDigit then some ((digitsVal (c :: cs) : Int)) else none

/-! ## API client: `BigCommerceAPI.create_coupon_codes`

Each `POST /promotions/{id}/codes` call either yields an HTTP response with
some status code (on which `raise_for_status` raises `HTTPError` exactly
for statuses in `[400, 600)`), or raises some other exception (network
failure, etc.). -/

/-- Outcome of one `create_coupon_code` call, as seen by the `try` block. -/
inductive UploadOutcome
  /-- An HTTP response with the given status code was received. -/
  | response (status : Nat)
  /-- Some exception other than `requests.exceptions.HTTPError` was raised. -/
  | exc
deriving DecidableEq

/-- `BigCommerceAPI.create_coupon_codes`: iterate the records in order,
classifying each remote outcome.  A record is a pair of its `code` field and
the remote outcome of its creation request.  Returns the pair
`(success, errors)`: success entries are codes, error entries are
`(message, code)` pairs, both in encounter order. -/
def create_coupon_codes : List (String × UploadOutcome) → List String × List (String × String)
  | [] => ([], [])
  | (code, o) :: rest =>
    let r := create_coupon_codes rest
    match o with
    | UploadOutcome.exc => (r.1, ("Error importing code.", code) :: r.2)
    | UploadOutcome.response s =>
      if 400 ≤ s ∧ s < 600 then
        if s = 422 then (r.1, ("Duplicate code.", code) :: r.2)
        else if s = 400 then (r.1, ("Error importing code.", code) :: r.2)
        else if s = 401 then (r.1, ("Error importing code.", code) :: r.2)
        else (r.1, r.2)
      else (code :: r.1, r.2)

/-- Per-record classification of `create_coupon_codes`. -/
inductive RecordResult
  | success
  | failure (message : String)
  /-- The record is appended to neither list: an `HTTPError` whose status is
  in `[400, 600)` but is none of 422, 400, 401 matches no branch of the
  handler. -/
  | dropped
deriving DecidableEq

/-- How `create_coupon_codes` classifies a single remote outcome. -/
def classifyOutcome : UploadOutcome → RecordResult
  | UploadOutcome.exc => RecordResult.failure "Error importing code."
  | UploadOutcome.response s =>
    if 400 ≤ s ∧ s < 600 then
      if s = 422 then RecordResult.failure "Duplicate code."
      else if s = 400 then RecordResult.failure "Error importing code."
      else if s = 401 then RecordResult.failure "Error importing code."
      else RecordResult.dropped
    else RecordResult.success

/-! ## API client: `validate_promotion` -/

/-- The fields of a promotion dictionary that `validate_promotion` consumes;
`none` models an absent key (`dict.get` returning `None`). -/
structure Promotion where
  name : Option String
  redemption_type : Option String
deriving DecidableEq

/-- Outcome of `get_promotion_by_id` as seen by `validate_promotion`'s `try`
block. -/
inductive FetchOutcome
  /-- The request succeeded with a 2xx; `promo = none` models the empty
  dictionary `{}` (falsy in Python), `promo = some p` a non-empty one. -/
  | success (promo : Option Promotion)
  /-- `raise_for_status` raised `HTTPError` with the given status. -/
  | httpError (status : Nat)
  /-- Some other exception was raised. -/
  | exc
deriving DecidableEq

/-- `validate_promotion`: true exactly when the fetched promotion is
non-empty and its `redemption_type` is `"COUPON"`; every exceptional path
returns `False`. -/
def validate_promotion : FetchOutcome → Bool
  | FetchOutcome.success none => false
  | FetchOutcome.success (some p) => decide (p.redemption_type = some "COUPON")
  | FetchOutcome.httpError _ => false
  | FetchOutcome.exc => false

/-! ## CSV loader: `read_coupon_codes`

A parsed CSV file is a header (the list of column names, row 1) and a list
of data rows.  A data row is represented by the three fields that
`csv.DictReader` hands to the loader under the required column names, plus
the values of any additional columns (consulted only by the
all-fields-empty check `not any(row.values())`). -/

/-- One data row of the CSV file, as exposed by `csv.DictReader`. -/
structure RawRow where
  code : String
  maxUses : String
  maxUsesPerCustomer : String
  extras : List String
deriving DecidableEq

/-- A validated coupon record, as accumulated into `codes`. -/
structure CouponRecord where
  code : String
  max_uses : Int
  max_uses_per_customer : Int
deriving DecidableEq

/-- The non-fatal per-row warnings printed by `read_coupon_codes`, plus the
truncation warning. -/
inductive Warning
  | emptyCode (rowNumber : Nat)
  | invalidMaxUses (rowNumber : Nat)
  | invalidMaxUsesPerCustomer (rowNumber : Nat)
  | invalidNumberFormat (rowNumber : Nat)
  | truncated (originalCount keptCount : Nat)
deriving DecidableEq

/-- The fatal loader failures (each `print` + `sys.exit(1)` path reachable
from the row-processing logic). -/
inductive LoadError
  | schemaError (required found : List String)
  | noValidRecords
deriving DecidableEq

/-- The required header columns (the Python set `required_columns`). -/
def requiredColumns : List String := ["Code", "MaxUses", "MaxUsesPerCustomer"]

/-- The columns a `schemaError` message names: the required ones and the
found ones. -/
def namedColumns : LoadError → List String
  | LoadError.schemaError required found => required ++ found
  | LoadError.noValidRecords => []

/-- The MaxUsesPerCustomer half of the row-processing `try` block, entered
with the trimmed code and an already-validated `max_uses`. -/
def processRowMuc (n : Nat) (code : String) (mu : Int) (r : RawRow) :
    Option CouponRecord × List Warning :=
  if pyStrip r.maxUsesPerCustomer = "" then
    (some { code := code, max_uses := mu, max_uses_per_customer := 0 }, [])
  else
    match pyInt (pyStrip r.maxUsesPerCustomer) with
    | none => (none, [Warning.invalidNumberFormat n])
    | some muc =>
      if muc < 0 then (none, [Warning.invalidMaxUsesPerCustomer n])
      else (some { code := code, max_uses := mu, max_uses_per_customer := muc }, [])

/-- The body of the row loop of `read_coupon_codes` for the row numbered
`n`: returns the accumulated record (if any) and the warnings printed. -/
def processRow (n : Nat) (r : RawRow) : Option CouponRecord × List Warning :=
  if r.code = "" ∧ r.maxUses = "" ∧ r.maxUsesPerCustomer = ""
      ∧ ∀ s ∈ r.extras, s = "" then
    (none, [])
  else
    let code := pyStrip r.code
    if code = "" then (none, [Warning.emptyCode n])
    else
      if pyStrip r.maxUses = "" then
        processRowMuc n code 0 r
      else
        match pyInt (pyStrip r.maxUses) with
        | none => (none, [Warning.invalidNumberFormat n])
        | some mu =>
          if mu < 0 then (none, [Warning.invalidMaxUses n])
          else processRowMuc n code mu r

/-- The row loop of `read_coupon_codes`, starting at row number `n`. -/
def processRows : Nat → List RawRow → List CouponRecord × List Warning
  | _, [] => ([], [])
  | n, r :: rs =>
    let h := processRow n r
    let t := processRows (n + 1) rs
    (h.1.toList ++ t.1, h.2 ++ t.2)

/-- `read_coupon_codes`: validate the header, process the data rows in file
order (the header is row 1, so data rows start at row number 2), fail if no
valid records remain, and truncate to `limit` records with a warning when
more accumulated. -/
def read_coupon_codes (header : List String) (rows : List RawRow) (limit : Nat) :
    Except LoadError (List CouponRecord × List Warning) :=
  if ∀ c ∈ requiredColumns, c ∈ header then
    let codes := (processRows 2 rows).1
    let warnings := (processRows 2 rows).2
    if codes = [] then Except.error LoadError.noValidRecords
    else if limit < codes.length then
      Except.ok (codes.take limit, warnings ++ [Warning.truncated codes.length limit])
    else Except.ok (codes, warnings)
  else Except.error (LoadError.schemaError requiredColumns header)

/-- A well-formed row, in the sense of claim C3: non-empty trimmed code, and
each numeric field blank or parsing to a non-negative integer. -/
def wellFormedRow (r : RawRow) : Prop :=
  pyStrip r.code ≠ ""
    ∧ (pyStrip r.maxUses = ""
        ∨ ∃ v : Int, pyInt (pyStrip r.maxUses) = some v ∧ 0 ≤ v)
    ∧ (pyStrip r.maxUsesPerCustomer = ""
        ∨ ∃ v : Int, pyInt (pyStrip r.maxUsesPerCustomer) = some v ∧ 0 ≤ v)

/-- The record a well-formed row yields: fields trimmed, blank numeric
fields defaulted to 0. -/
def recordOfRow (r : RawRow) : CouponRecord :=
  { code := pyStrip r.code
    max_uses :=
      if pyStrip r.maxUses = "" then 0 else (pyInt (pyStrip r.maxUses)).getD 0
    max_uses_per_customer :=
      if pyStrip r.maxUsesPerCustomer = "" then 0
      else (pyInt (pyStrip r.maxUsesPerCustomer)).getD 0 }

/-- A numeric field that is present (non-blank after trimming) but either
fails to parse as an integer or parses to a negative one. -/
def badNumField (s : String) : Prop :=
  s ≠ "" ∧ (pyInt s = none ∨ ∃ v : Int, pyInt s = some v ∧ v < 0)

/-- A row whose code is non-empty but whose MaxUses or MaxUsesPerCustomer
field is present and invalid, in the sense of claim C7. -/
def invalidNumericRow (r : RawRow) : Prop :=
  pyStrip r.code ≠ ""
    ∧ ((badNumField (pyStrip r.maxUses))
        ∨ ((pyStrip r.maxUses = ""
              ∨ ∃ v : Int, pyInt (pyStrip r.maxUses) = some v ∧ 0 ≤ v)
            ∧ badNumField (pyStrip r.maxUsesPerCustomer)))

/-- Executable check for "blank, or a parsed non-negative integer". -/
def goodNumFieldB (s : String) : Bool :=
  s == "" ||
    (match pyInt s with
     | some v => decide (0 ≤ v)
     | none => false)

/-- Executable check for `badNumField`. -/
def badNumFieldB (s : String) : Bool :=
  s != "" &&
    (match pyInt s with
     | none => true
     | some v => decide (v < 0))

instance decGoodNumField (s : String) :
    Decidable (s = "" ∨ ∃ v : Int, pyInt s = some v ∧ 0 ≤ v) :=
  decidable_of_iff (goodNumFieldB s = true) (by
    unfold goodNumFieldB
    cases h : pyInt s with
    | none => simp [h]
    | some v => simp [h])

instance decBadNumField (s : String) : Decidable (badNumField s) :=
  decidable_of_iff (badNumFieldB s = true) (by
    unfold badNumFieldB badNumField
    cases h : pyInt s with
    | none => simp [h]
    | some v => simp [h])

instance decWellFormedRow (r : RawRow) : Decidable (wellFormedRow r) :=
  decidable_of_iff
    (pyStrip r.code ≠ ""
      ∧ (pyStrip r.maxUses = ""
          ∨ ∃ v : Int, pyInt (pyStrip r.maxUses) = some v ∧ 0 ≤ v)
      ∧ (pyStrip r.maxUsesPerCustomer = ""
          ∨ ∃ v : Int, pyInt (pyStrip r.maxUsesPerCustomer) = some v ∧ 0 ≤ v))
    Iff.rfl

instance decInvalidNumericRow (r : RawRow) : Decidable (invalidNumericRow r) :=
  decidable_of_iff
    (pyStrip r.code ≠ ""
      ∧ ((badNumField (pyStrip r.maxUses))
          ∨ ((pyStrip r.maxUses = ""
                ∨ ∃ v : Int, pyInt (pyStrip r.maxUses) = some v ∧ 0 ≤ v)
              ∧ badNumField (pyStrip r.maxUsesPerCustomer))))
    Iff.rfl

/-- A row the loader skips: its row-loop body accumulates no record.  (The
record component of `processRow` does not depend on the row number, so row
number 0 is representative.) -/
def rowSkipped (r : RawRow) : Prop := (processRow 0 r).1 = none

instance decRowSkipped (r : RawRow) : Decidable (rowSkipped r) :=
  inferInstanceAs (Decidable ((processRow 0 r).1 = none))

/-- The data-model invariant of claim C9 for a single record. -/
def goodRecord (rec : CouponRecord) : Prop :=
  rec.code ≠ "" ∧ pyStrip rec.code = rec.code
    ∧ 0 ≤ rec.max_uses ∧ 0 ≤ rec.max_uses_per_customer

/-! ## Lemmas about `pyStrip` -/

theorem pyStrip_empty : pyStrip "" = "" := by decide

theorem stripChars_idem (l : List Char) : stripChars (stripChars l) = stripChars l := by
  have hdrop : List.dropWhile isPySpace (stripChars l) = stripChars l := by
    rw [List.dropWhile_eq_self_iff]
    intro hl
    obtain ⟨t, ht⟩ :=
      List.dropWhile_suffix (l := (List.dropWhile isPySpace l).reverse) isPySpace
    have hBrev : (stripChars l).reverse
        = (List.dropWhile isPySpace l).reverse.dropWhile isPySpace := by
      unfold stripChars List.rdropWhile
      rw [List.reverse_reverse]
    have hA : List.dropWhile isPySpace l = stripChars l ++ t.reverse := by
      have h2 := congrArg List.reverse ht
      rw [List.reverse_append, ← hBrev, List.reverse_reverse, List.reverse_reverse]
        at h2
      exact h2.symm
    have hlenA : 0 < (List.dropWhile isPySpace l).length := by
      rw [hA, List.length_append]
      omega
    have hnot := List.dropWhile_get_zero_not isPySpace l hlenA
    have h0 : (List.dropWhile isPySpace l).get ⟨0, hlenA⟩
        = (stripChars l).get ⟨0, hl⟩ := by
      simp only [List.get_eq_getElem]
      simp only [hA]
      exact List.getElem_append_left hl
    rw [h0] at hnot
    exact hnot
  have houter : stripChars (stripChars l)
      = List.rdropWhile isPySpace (List.dropWhile isPySpace (stripChars l)) := rfl
  have hinner : stripChars l
      = List.rdropWhile isPySpace (List.dropWhile isPySpace l) := rfl
  rw [houter, hdrop, hinner, List.rdropWhile_idempotent]

theorem pyStrip_idem (s : String) : pyStrip (pyStrip s) = pyStrip s :=
  congrArg String.mk (stripChars_idem s.data)

/-! ## Helper lemmas about `create_coupon_codes` -/

theorem create_coupon_codes_cons (code : String) (o : UploadOutcome)
    (rest : List (String × UploadOutcome)) :
    create_coupon_codes ((code, o) :: rest) =
      match classifyOutcome o with
      | RecordResult.success =>
          (code :: (create_coupon_codes rest).1, (create_coupon_codes rest).2)
      | RecordResult.failure m =>
          ((create_coupon_codes rest).1, (m, code) :: (create_coupon_codes rest).2)
      | RecordResult.dropped => create_coupon_codes rest := by
  cases o with
  | exc => simp [create_coupon_codes, classifyOutcome]
  | response s =>
    by_cases h4 : 400 ≤ s ∧ s < 600
    · by_cases h422 : s = 422
      · simp [create_coupon_codes, classifyOutcome, h422]
      · by_cases h400 : s = 400
        · simp [create_coupon_codes, classifyOutcome, h400]
        · by_cases h401 : s = 401
          · simp [create_coupon_codes, classifyOutcome, h401]
          · simp [create_coupon_codes, classifyOutcome, h4, h422, h400, h401]
    · simp [create_coupon_codes, classifyOutcome, h4]

theorem create_coupon_codes_eq_filterMap (rows : List (String × UploadOutcome)) :
    create_coupon_codes rows =
      (rows.filterMap (fun rc =>
         if classifyOutcome rc.2 = RecordResult.success then some rc.1 else none),
       rows.filterMap (fun rc =>
         match classifyOutcome rc.2 with
         | RecordResult.failure m => some (m, rc.1)
         | _ => none)) := by
  induction rows with
  | nil => rfl
  | cons rc rest ih =>
    obtain ⟨code, o⟩ := rc
    rw [create_coupon_codes_cons]
    cases hc : classifyOutcome o with
    | success => simp [List.filterMap_cons, hc, ih]
    | failure m => simp [List.filterMap_cons, hc, ih]
    | dropped => simp [List.filterMap_cons, hc, ih]

theorem create_coupon_codes_length_le (rows : List (String × UploadOutcome)) :
    (create_coupon_codes rows).1.length + (create_coupon_codes rows).2.length
      ≤ rows.length := by
  induction rows with
  | nil => simp [create_coupon_codes]
  | cons rc rest ih =>
    obtain ⟨code, o⟩ := rc
    rw [create_coupon_codes_cons]
    cases classifyOutcome o with
    | success =>
      simp only [List.length_cons]
      omega
    | failure m =>
      simp only [List.length_cons]
      omega
    | dropped =>
      simp only [List.length_cons]
      omega

theorem create_coupon_codes_append (xs ys : List (String × UploadOutcome)) :
    create_coupon_codes (xs ++ ys) =
      ((create_coupon_codes xs).1 ++ (create_coupon_codes ys).1,
       (create_coupon_codes xs).2 ++ (create_coupon_codes ys).2) := by
  rw [create_coupon_codes_eq_filterMap, create_coupon_codes_eq_filterMap,
    create_coupon_codes_eq_filterMap]
  simp [List.filterMap_append]

/-! ## Claim theorems: API client -/

/-- C1 counterexample: for a single record whose creation request returns
HTTP 500, `create_coupon_codes` appends it to neither the success list nor
the error list, so the number of successes plus the number of errors (0) is
not the number of input records (1), refuting the claimed classification of
every record into exactly one of the two lists. -/
theorem C1_counterexample :
    (create_coupon_codes [("X", UploadOutcome.response 500)]).1.length
        + (create_coupon_codes [("X", UploadOutcome.response 500)]).2.length
      ≠ [("X", UploadOutcome.response 500)].length := by
  decide

/-- C1 (amended): `create_coupon_codes` classifies each record independently
by its remote outcome: HTTP 422 yields the error "Duplicate code.", HTTP 400
and HTTP 401 yield "Error importing code.", any non-`HTTPError` exception
yields "Error importing code.", any response that does not raise (status
outside `[400, 600)`) yields a success, and an `HTTPError` with any other
status (e.g. 500) is appended to neither list.  Consequently the number of
successes plus the number of errors is at most (not always equal to) the
number of input records, and one record's outcome never prevents processing
of the remaining records: the result of a concatenated batch is the
concatenation of the results. -/
theorem C1_amended (rows xs ys : List (String × UploadOutcome)) :
    create_coupon_codes rows =
        (rows.filterMap (fun rc =>
           if classifyOutcome rc.2 = RecordResult.success then some rc.1 else none),
         rows.filterMap (fun rc =>
           match classifyOutcome rc.2 with
           | RecordResult.failure m => some (m, rc.1)
           | _ => none))
      ∧ (create_coupon_codes rows).1.length + (create_coupon_codes rows).2.length
          ≤ rows.length
      ∧ create_coupon_codes (xs ++ ys) =
          ((create_coupon_codes xs).1 ++ (create_coupon_codes ys).1,
           (create_coupon_codes xs).2 ++ (create_coupon_codes ys).2) :=
  ⟨create_coupon_codes_eq_filterMap rows,
   create_coupon_codes_length_le rows,
   create_coupon_codes_append xs ys⟩

/-- C6: in the batch of three records where the second creation request
returns HTTP 422 and the first and third succeed (HTTP 201),
`create_coupon_codes` returns exactly 2 successes and exactly 1 error with
message "Duplicate code." attached to the second record's code, both lists
preserving the input order. -/
theorem C6_three_codes :
    create_coupon_codes
        [("SAVE10", UploadOutcome.response 201),
         ("WELCOME20", UploadOutcome.response 422),
         ("FREESHIP", UploadOutcome.response 201)]
      = (["SAVE10", "FREESHIP"], [("Duplicate code.", "WELCOME20")]) := by
  decide

/-- C5: `validate_promotion` returns `true` if and only if the promotion
lookup succeeds with a non-empty promotion whose `redemption_type` is
`"COUPON"`; in particular it returns `false` on a 404, on an empty
promotion, and on any other `redemption_type`. -/
theorem C5_validate_promotion_iff (o : FetchOutcome) :
    validate_promotion o = true ↔
      ∃ p : Promotion, o = FetchOutcome.success (some p)
        ∧ p.redemption_type = some "COUPON" := by
  cases o with
  | success promo =>
    cases promo with
    | none => simp [validate_promotion]
    | some p => simp [validate_promotion]
  | httpError s => simp [validate_promotion]
  | exc => simp [validate_promotion]

/-- C10: `validate_promotion` is total over every outcome of the remote
lookup: every exceptional outcome — an `HTTPError` of any status (404
included) or any other exception — yields the boolean `false` rather than a
propagated exception, and on every outcome the function returns a boolean. -/
theorem C10_validate_promotion_total :
    (∀ s : Nat, validate_promotion (FetchOutcome.httpError s) = false)
      ∧ validate_promotion FetchOutcome.exc = false
      ∧ ∀ o : FetchOutcome,
          validate_promotion o = true ∨ validate_promotion o = false := by
  refine ⟨fun s => rfl, rfl, fun o => ?_⟩
  cases validate_promotion o with
  | true => exact Or.inl rfl
  | false => exact Or.inr rfl

/-! ## Structural lemmas about the row loop -/

theorem processRowMuc_fst (n m : Nat) (code : String) (mu : Int) (r : RawRow) :
    (processRowMuc n code mu r).1 = (processRowMuc m code mu r).1 := by
  unfold processRowMuc
  by_cases h1 : pyStrip r.maxUsesPerCustomer = ""
  · simp [h1]
  · cases h2 : pyInt (pyStrip r.maxUsesPerCustomer) with
    | none => simp [h1, h2]
    | some muc => by_cases h3 : muc < 0 <;> simp [h1, h2, h3]

theorem processRow_fst (n m : Nat) (r : RawRow) :
    (processRow n r).1 = (processRow m r).1 := by
  unfold processRow
  by_cases h0 : r.code = "" ∧ r.maxUses = "" ∧ r.maxUsesPerCustomer = ""
      ∧ ∀ s ∈ r.extras, s = ""
  · simp only [if_pos h0]
  · by_cases h1 : pyStrip r.code = ""
    · simp [h0, h1]
    · by_cases h2 : pyStrip r.maxUses = ""
      · simp [h0, h1, h2, processRowMuc_fst n m]
      · cases h3 : pyInt (pyStrip r.maxUses) with
        | none => simp [h0, h1, h2, h3]
        | some mu =>
          by_cases h4 : mu < 0 <;>
            simp [h0, h1, h2, h3, h4, processRowMuc_fst n m]

theorem processRows_cons (n : Nat) (r : RawRow) (rs : List RawRow) :
    processRows n (r :: rs)
      = ((processRow n r).1.toList ++ (processRows (n + 1) rs).1,
         (processRow n r).2 ++ (processRows (n + 1) rs).2) := rfl

theorem processRows_fst (n m : Nat) (rows : List RawRow) :
    (processRows n rows).1 = (processRows m rows).1 := by
  induction rows generalizing n m with
  | nil => rfl
  | cons r rs ih =>
    simp only [processRows_cons]
    rw [processRow_fst n m, ih (n + 1) (m + 1)]

theorem processRows_append (n : Nat) (xs ys : List RawRow) :
    processRows n (xs ++ ys)
      = ((processRows n xs).1 ++ (processRows (n + xs.length) ys).1,
         (processRows n xs).2 ++ (processRows (n + xs.length) ys).2) := by
  induction xs generalizing n with
  | nil => simp [processRows]
  | cons r rs ih =>
    have harith : n + 1 + rs.length = n + (rs.length + 1) := by omega
    simp only [List.cons_append, processRows_cons, ih (n + 1), List.length_cons,
      List.append_assoc, harith]

/-! ## Behaviour of the row loop on well-formed rows -/

theorem pyInt_empty : pyInt "" = none := by decide

theorem processRowMuc_wellFormed (n : Nat) (code : String) (mu : Int) (r : RawRow)
    (h : pyStrip r.maxUsesPerCustomer = ""
      ∨ ∃ v : Int, pyInt (pyStrip r.maxUsesPerCustomer) = some v ∧ 0 ≤ v) :
    processRowMuc n code mu r
      = (some
          { code := code
            max_uses := mu
            max_uses_per_customer :=
              if pyStrip r.maxUsesPerCustomer = "" then 0
              else (pyInt (pyStrip r.maxUsesPerCustomer)).getD 0 }, []) := by
  rcases h with h | ⟨v, hv, hnn⟩
  · simp [processRowMuc, h]
  · have hne : pyStrip r.maxUsesPerCustomer ≠ "" := by
      intro he
      rw [he, pyInt_empty] at hv
      exact Option.noConfusion hv
    simp [processRowMuc, hne, hv, not_lt.mpr hnn]

theorem processRow_wellFormed (n : Nat) (r : RawRow) (h : wellFormedRow r) :
    processRow n r = (some (recordOfRow r), []) := by
  obtain ⟨hc, hmu, hmuc⟩ := h
  have hne0 : ¬(r.code = "" ∧ r.maxUses = "" ∧ r.maxUsesPerCustomer = ""
      ∧ ∀ s ∈ r.extras, s = "") := by
    rintro ⟨h1, -⟩
    exact hc (by rw [h1, pyStrip_empty])
  rcases hmu with hmu | ⟨v, hv, hnn⟩
  · simp [processRow, hne0, hc, hmu,
      processRowMuc_wellFormed n (pyStrip r.code) 0 r hmuc, recordOfRow]
  · have hne : pyStrip r.maxUses ≠ "" := by
      intro he
      rw [he, pyInt_empty] at hv
      exact Option.noConfusion hv
    simp [processRow, hne0, hc, hne, hv, not_lt.mpr hnn,
      processRowMuc_wellFormed n (pyStrip r.code) v r hmuc, recordOfRow]

theorem processRows_wellFormed (n : Nat) (rows : List RawRow)
    (h : ∀ r ∈ rows, wellFormedRow r) :
    processRows n rows = (rows.map recordOfRow, []) := by
  induction rows generalizing n with
  | nil => rfl
  | cons r rs ih =>
    rw [processRows_cons, processRow_wellFormed n r (h r (by simp)),
      ih (n + 1) (fun x hx => h x (by simp [hx]))]
    simp

/-! ## Behaviour of the row loop on invalid rows -/

theorem processRowMuc_invalid (n : Nat) (code : String) (mu : Int) (r : RawRow)
    (h : badNumField (pyStrip r.maxUsesPerCustomer)) :
    ∃ w : Warning, processRowMuc n code mu r = (none, [w]) := by
  obtain ⟨hne, hd⟩ :
      pyStrip r.maxUsesPerCustomer ≠ ""
        ∧ (pyInt (pyStrip r.maxUsesPerCustomer) = none
            ∨ ∃ v : Int, pyInt (pyStrip r.maxUsesPerCustomer) = some v ∧ v < 0) := h
  rcases hd with hnone | ⟨v, hv, hneg⟩
  · exact ⟨Warning.invalidNumberFormat n, by simp [processRowMuc, hne, hnone]⟩
  · exact ⟨Warning.invalidMaxUsesPerCustomer n,
      by simp [processRowMuc, hne, hv, hneg]⟩

theorem processRow_invalid (n : Nat) (r : RawRow) (h : invalidNumericRow r) :
    ∃ w : Warning, processRow n r = (none, [w]) := by
  obtain ⟨hc, hbad⟩ := h
  have hne0 : ¬(r.code = "" ∧ r.maxUses = "" ∧ r.maxUsesPerCustomer = ""
      ∧ ∀ s ∈ r.extras, s = "") := by
    rintro ⟨h1, -⟩
    exact hc (by rw [h1, pyStrip_empty])
  rcases hbad with hbadmu | ⟨hgood, hbadmuc⟩
  · obtain ⟨hmune, hd⟩ :
        pyStrip r.maxUses ≠ ""
          ∧ (pyInt (pyStrip r.maxUses) = none
              ∨ ∃ v : Int, pyInt (pyStrip r.maxUses) = some v ∧ v < 0) := hbadmu
    rcases hd with hnone | ⟨v, hv, hneg⟩
    · exact ⟨Warning.invalidNumberFormat n,
        by simp [processRow, hne0, hc, hmune, hnone]⟩
    · exact ⟨Warning.invalidMaxUses n,
        by simp [processRow, hne0, hc, hmune, hv, hneg]⟩
  · rcases hgood with hblank | ⟨v, hv, hnn⟩
    · obtain ⟨w, hw⟩ := processRowMuc_invalid n (pyStrip r.code) 0 r hbadmuc
      exact ⟨w, by simp [processRow, hne0, hc, hblank, hw]⟩
    · have hne : pyStrip r.maxUses ≠ "" := by
        intro he
        rw [he, pyInt_empty] at hv
        exact Option.noConfusion hv
      obtain ⟨w, hw⟩ := processRowMuc_invalid n (pyStrip r.code) v r hbadmuc
      exact ⟨w, by simp [processRow, hne0, hc, hne, hv, not_lt.mpr hnn, hw]⟩

theorem processRows_invalid_middle (n : Nat) (pre post : List RawRow) (bad : RawRow)
    (h : invalidNumericRow bad) :
    ∃ w : Warning,
      processRows n (pre ++ bad :: post)
        = ((processRows n pre).1 ++ (processRows (n + pre.length + 1) post).1,
           (processRows n pre).2 ++ w :: (processRows (n + pre.length + 1) post).2) := by
  obtain ⟨w, hw⟩ := processRow_invalid (n + pre.length) bad h
  refine ⟨w, ?_⟩
  rw [processRows_append n pre (bad :: post), processRows_cons, hw]
  simp

theorem processRows_skipped (n : Nat) (rows : List RawRow)
    (hskip : ∀ r ∈ rows, rowSkipped r) : (processRows n rows).1 = [] := by
  induction rows generalizing n with
  | nil => rfl
  | cons r rs ih =>
    rw [processRows_cons]
    have h0 : (processRow n r).1 = none := by
      rw [processRow_fst n 0]
      exact hskip r (by simp)
    simp [h0, ih (n + 1) (fun x hx => hskip x (by simp [hx]))]

/-! ## The data-model invariant of produced records -/

theorem processRowMuc_good (n : Nat) (code : String) (mu : Int) (r : RawRow)
    (rec : CouponRecord) (hcode : code ≠ "") (hstrip : pyStrip code = code)
    (hmu : 0 ≤ mu) (h : (processRowMuc n code mu r).1 = some rec) :
    goodRecord rec := by
  unfold processRowMuc at h
  split at h
  · simp at h
    subst h
    exact ⟨hcode, hstrip, hmu, le_refl 0⟩
  · split at h
    · simp at h
    · split at h
      · simp at h
      · simp at h
        subst h
        rename_i muc hmuc hneg
        exact ⟨hcode, hstrip, hmu, not_lt.mp hneg⟩

theorem processRow_good (n : Nat) (r : RawRow) (rec : CouponRecord)
    (h : (processRow n r).1 = some rec) : goodRecord rec := by
  simp only [processRow] at h
  split at h
  · simp at h
  · split at h
    · simp at h
    · rename_i hcode
      split at h
      · exact processRowMuc_good n (pyStrip r.code) 0 r rec hcode
          (pyStrip_idem r.code) (le_refl 0) h
      · split at h
        · simp at h
        · split at h
          · simp at h
          · rename_i mu hmu hneg
            exact processRowMuc_good n (pyStrip r.code) mu r rec hcode
              (pyStrip_idem r.code) (not_lt.mp hneg) h

theorem processRows_good (n : Nat) (rows : List RawRow) (rec : CouponRecord)
    (h : rec ∈ (processRows n rows).1) : goodRecord rec := by
  induction rows generalizing n with
  | nil => simp [processRows] at h
  | cons r rs ih =>
    rw [processRows_cons] at h
    simp only [List.mem_append, Option.mem_toList, Option.mem_def] at h
    rcases h with h | h
    · exact processRow_good n r rec h
    · exact ih (n + 1) h

/-! ## Claim theorems: CSV loader -/

/-- C2: for every CSV whose header misses at least one required column, the
loader fails with a schema error carrying the required and the found
columns — so every missing column is among the columns the message names —
and no record list is ever returned. -/
theorem C2_missing_columns (header : List String) (rows : List RawRow) (limit : Nat)
    (h : ∃ c ∈ requiredColumns, c ∉ header) :
    read_coupon_codes header rows limit
        = Except.error (LoadError.schemaError requiredColumns header)
      ∧ (∀ c ∈ requiredColumns, c ∉ header →
          c ∈ namedColumns (LoadError.schemaError requiredColumns header))
      ∧ ∀ recs ws, read_coupon_codes header rows limit ≠ Except.ok (recs, ws) := by
  have hcond : ¬ ∀ c ∈ requiredColumns, c ∈ header := by
    obtain ⟨c, hcr, hch⟩ := h
    exact fun hall => hch (hall c hcr)
  refine ⟨?_, ?_, ?_⟩
  · simp [read_coupon_codes, hcond]
  · intro c hcr _
    simp [namedColumns, hcr]
  · intro recs ws
    simp [read_coupon_codes, hcond]

/-- C2 witness: a header containing only "Code" and an extra column. -/
theorem C2_witness :
    (∃ c ∈ requiredColumns, c ∉ (["Code", "Extra"] : List String))
      ∧ read_coupon_codes ["Code", "Extra"] [] 100
          = Except.error (LoadError.schemaError requiredColumns ["Code", "Extra"]) :=
  ⟨by decide, (C2_missing_columns ["Code", "Extra"] [] 100 (by decide)).1⟩

/-- C3: for every CSV whose data rows are all well-formed (at least one of
them) and every limit at least the number of rows, the loader returns
exactly one record per row, in file order, with the code trimmed and the
numeric fields trimmed-and-parsed, blank ones defaulting to 0. -/
theorem C3_wellformed_rows (header : List String) (rows : List RawRow) (limit : Nat)
    (hheader : ∀ c ∈ requiredColumns, c ∈ header)
    (hwf : ∀ r ∈ rows, wellFormedRow r)
    (hne : rows ≠ [])
    (hlim : rows.length ≤ limit) :
    read_coupon_codes header rows limit = Except.ok (rows.map recordOfRow, []) := by
  have hp := processRows_wellFormed 2 rows hwf
  have h1 : ¬ rows.map recordOfRow = [] := by simpa using hne
  have h2 : ¬ limit < rows.length := by omega
  simp only [read_coupon_codes]
  rw [if_pos hheader]
  simp [hp, h1, h2]

/-- C3 witness: two well-formed rows with whitespace and blank numeric
fields. -/
theorem C3_witness :
    (∀ r ∈ ([⟨" SAVE10 ", " 1 ", "", []⟩,
             ⟨"WELCOME20", "", " 0 ", []⟩] : List RawRow), wellFormedRow r)
      ∧ read_coupon_codes requiredColumns
            [⟨" SAVE10 ", " 1 ", "", []⟩, ⟨"WELCOME20", "", " 0 ", []⟩] 100
          = Except.ok
              (([⟨" SAVE10 ", " 1 ", "", []⟩,
                 ⟨"WELCOME20", "", " 0 ", []⟩] : List RawRow).map recordOfRow, []) :=
  ⟨by decide,
   C3_wellformed_rows requiredColumns
     [⟨" SAVE10 ", " 1 ", "", []⟩, ⟨"WELCOME20", "", " 0 ", []⟩] 100
     (by decide) (by decide) (by decide) (by decide)⟩

/-- C4: for every CSV yielding more valid records than the limit `L`, the
loader returns exactly the first `L` valid records in file order, and the
warning list ends with a truncation warning stating the original count and
the kept count. -/
theorem C4_truncation (header : List String) (rows : List RawRow) (L : Nat)
    (hheader : ∀ c ∈ requiredColumns, c ∈ header)
    (hlt : L < (processRows 2 rows).1.length) :
    read_coupon_codes header rows L
      = Except.ok ((processRows 2 rows).1.take L,
          (processRows 2 rows).2
            ++ [Warning.truncated (processRows 2 rows).1.length L]) := by
  have hne : ¬ (processRows 2 rows).1 = [] := by
    intro h0
    rw [h0] at hlt
    simp at hlt
  simp only [read_coupon_codes]
  rw [if_pos hheader]
  simp [hne, hlt]

/-- C4 witness: three valid rows with a limit of 2. -/
theorem C4_witness :
    2 < (processRows 2 ([⟨"A", "", "", []⟩, ⟨"B", "", "", []⟩,
          ⟨"C", "", "", []⟩] : List RawRow)).1.length
      ∧ read_coupon_codes requiredColumns
            [⟨"A", "", "", []⟩, ⟨"B", "", "", []⟩, ⟨"C", "", "", []⟩] 2
          = Except.ok
              ((processRows 2 ([⟨"A", "", "", []⟩, ⟨"B", "", "", []⟩,
                  ⟨"C", "", "", []⟩] : List RawRow)).1.take 2,
               (processRows 2 ([⟨"A", "", "", []⟩, ⟨"B", "", "", []⟩,
                  ⟨"C", "", "", []⟩] : List RawRow)).2
                 ++ [Warning.truncated 3 2]) :=
  ⟨by decide,
   C4_truncation requiredColumns
     [⟨"A", "", "", []⟩, ⟨"B", "", "", []⟩, ⟨"C", "", "", []⟩] 2
     (by decide) (by decide)⟩

theorem read_map_fst_congr (header : List String) (limit : Nat)
    (rows1 rows2 : List RawRow)
    (h : (processRows 2 rows1).1 = (processRows 2 rows2).1) :
    (read_coupon_codes header rows1 limit).map Prod.fst
      = (read_coupon_codes header rows2 limit).map Prod.fst := by
  by_cases hh : ∀ c ∈ requiredColumns, c ∈ header
  · simp only [read_coupon_codes]
    rw [if_pos hh, if_pos hh, h]
    by_cases h0 : (processRows 2 rows2).1 = []
    · simp [h0]
    · by_cases h1 : limit < (processRows 2 rows2).1.length
      · simp [h0, h1, Except.map]
      · simp [h0, h1, Except.map]
  · simp only [read_coupon_codes]
    rw [if_neg hh, if_neg hh]

/-- C7: a row whose MaxUses or MaxUsesPerCustomer field is present but
non-numeric or negative is skipped with exactly one warning: the records
accumulated from the surrounding rows are unchanged, exactly one warning is
inserted at the bad row's position, and the loader's returned record list
(or fatal error) is the same as for the file without the bad row — a single
bad row never aborts the load. -/
theorem C7_invalid_number_row (pre post : List RawRow) (bad : RawRow)
    (header : List String) (limit n : Nat)
    (h : invalidNumericRow bad) :
    (processRows n (pre ++ bad :: post)).1
        = (processRows n pre).1 ++ (processRows (n + pre.length + 1) post).1
      ∧ (∃ w : Warning, (processRows n (pre ++ bad :: post)).2
          = (processRows n pre).2 ++ w :: (processRows (n + pre.length + 1) post).2)
      ∧ (read_coupon_codes header (pre ++ bad :: post) limit).map Prod.fst
          = (read_coupon_codes header (pre ++ post) limit).map Prod.fst := by
  obtain ⟨w, hw⟩ := processRows_invalid_middle n pre post bad h
  refine ⟨by rw [hw], ⟨w, by rw [hw]⟩, ?_⟩
  apply read_map_fst_congr
  obtain ⟨w2, hw2⟩ := processRows_invalid_middle 2 pre post bad h
  rw [hw2, processRows_append 2 pre post]
  show (processRows 2 pre).1 ++ (processRows (2 + pre.length + 1) post).1
      = (processRows 2 pre).1 ++ (processRows (2 + pre.length) post).1
  rw [processRows_fst (2 + pre.length + 1) (2 + pre.length) post]

/-- C7 witness: a non-numeric MaxUses row between two valid rows. -/
theorem C7_witness :
    invalidNumericRow ⟨"B", "abc", "", []⟩
      ∧ (processRows 2 ([⟨"A", "", "", []⟩] ++ ⟨"B", "abc", "", []⟩
            :: [⟨"C", "", "", []⟩])).1
          = (processRows 2 ([⟨"A", "", "", []⟩] : List RawRow)).1
              ++ (processRows 4 ([⟨"C", "", "", []⟩] : List RawRow)).1
      ∧ (read_coupon_codes requiredColumns
            ([⟨"A", "", "", []⟩] ++ ⟨"B", "abc", "", []⟩ :: [⟨"C", "", "", []⟩])
            100).map Prod.fst
          = (read_coupon_codes requiredColumns
              ([⟨"A", "", "", []⟩] ++ [⟨"C", "", "", []⟩]) 100).map Prod.fst :=
  ⟨by decide,
   (C7_invalid_number_row [⟨"A", "", "", []⟩] [⟨"C", "", "", []⟩]
      ⟨"B", "abc", "", []⟩ requiredColumns 100 2 (by decide)).1,
   (C7_invalid_number_row [⟨"A", "", "", []⟩] [⟨"C", "", "", []⟩]
      ⟨"B", "abc", "", []⟩ requiredColumns 100 2 (by decide)).2.2⟩

/-- C8: if the header is valid and every data row is skipped (in particular
if there are no data rows at all), the loader fails with the
no-valid-records error instead of returning an empty sequence. -/
theorem C8_no_valid_records (header : List String) (rows : List RawRow) (limit : Nat)
    (hheader : ∀ c ∈ requiredColumns, c ∈ header)
    (hskip : ∀ r ∈ rows, rowSkipped r) :
    read_coupon_codes header rows limit = Except.error LoadError.noValidRecords := by
  have hnil := processRows_skipped 2 rows hskip
  simp only [read_coupon_codes]
  rw [if_pos hheader]
  simp [hnil]

/-- C8 witness: one whitespace-only-code row and one negative-MaxUses row,
both skipped. -/
theorem C8_witness :
    (∀ r ∈ ([⟨"  ", "1", "1", []⟩, ⟨"X", "-3", "", []⟩] : List RawRow), rowSkipped r)
      ∧ read_coupon_codes requiredColumns
            [⟨"  ", "1", "1", []⟩, ⟨"X", "-3", "", []⟩] 100
          = Except.error LoadError.noValidRecords :=
  ⟨by decide,
   C8_no_valid_records requiredColumns
     [⟨"  ", "1", "1", []⟩, ⟨"X", "-3", "", []⟩] 100 (by decide) (by decide)⟩

/-- C9: every record in a successfully returned sequence satisfies the data
model invariant — its code is non-empty and a fixed point of trimming (hence
not whitespace-only), and its numeric fields are non-negative — and the
sequence's length never exceeds the caller-supplied limit. -/
theorem C9_invariants (header : List String) (rows : List RawRow) (limit : Nat)
    (recs : List CouponRecord) (ws : List Warning)
    (h : read_coupon_codes header rows limit = Except.ok (recs, ws)) :
    recs.length ≤ limit ∧ ∀ rec ∈ recs, goodRecord rec := by
  simp only [read_coupon_codes] at h
  split at h
  · split at h
    · exact absurd h (by simp)
    · split at h
      · rename_i hnil hlt
        simp only [Except.ok.injEq, Prod.mk.injEq] at h
        obtain ⟨hrecs, -⟩ := h
        subst hrecs
        constructor
        · simp only [List.length_take]
          omega
        · intro rec hrec
          exact processRows_good 2 rows rec (List.take_subset _ _ hrec)
      · rename_i hnil hlt
        simp only [Except.ok.injEq, Prod.mk.injEq] at h
        obtain ⟨hrecs, -⟩ := h
        subst hrecs
        constructor
        · omega
        · intro rec hrec
          exact processRows_good 2 rows rec hrec
  · exact absurd h (by simp)

/-- C9 witness: a single valid row under limit 100. -/
theorem C9_witness :
    read_coupon_codes requiredColumns [⟨"A", "2", "1", []⟩] 100
        = Except.ok ([⟨"A", 2, 1⟩], [])
      ∧ (([⟨"A", 2, 1⟩] : List CouponRecord).length ≤ 100
          ∧ ∀ rec ∈ ([⟨"A", 2, 1⟩] : List CouponRecord), goodRecord rec) :=
  ⟨by rfl,
   C9_invariants requiredColumns [⟨"A", "2", "1", []⟩] 100 [⟨"A", 2, 1⟩] []
     (by rfl)⟩

end BC
